import Mathlib

/-!
Shallow embedding of the `unsafe_ls` tool: the unsafe-region visitor
(src/src/visitor.rs, with the near-identical legacy copy src/visitor.rs)
and the report filter/formatter (src/src/unsafe_ls.rs `Session::run_library`,
with the legacy copy src/bin.rs `main` embedded separately where it differs).
-/

namespace UnsafeLs

/-- Source extent of an expression or item (`syntax::codemap::Span`); only the
start offset `lo` drives span sorting and line lookup in the formatter. -/
structure Span where
  lo : Nat
  hi : Nat
deriving DecidableEq, Repr

/-- Mutability qualifiers (`ast::Mutability`) as matched in `check_ptr_cast`. -/
inductive Mutability where
  | MutImmutable
  | MutMutable
deriving DecidableEq, Repr

/-- The fragment of `ty::sty` that the visitor inspects: bare function types
with an unsafety qualifier (`ty_bare_fn`), references (`ty_rptr`) and raw
pointers (`ty_ptr`) with their mutability, and everything else. -/
inductive TyKind where
  | ty_bare_fn (unsafety : Bool)
  | ty_rptr (mutbl : Mutability)
  | ty_ptr (mutbl : Mutability)
  | ty_other
deriving DecidableEq, Repr

/-- From `visitor.rs`, `type_is_unsafe_function`: a bare function type whose
unsafety qualifier is `Unsafe` (src/src/visitor.rs lines 14-19). -/
def type_is_unsafe_function (t : TyKind) : Bool :=
  match t with
  | .ty_bare_fn u => u
  | _ => false

/-- A definition id (`ast::DefId`): whether it is in the local crate
(`ast_util::is_local`) and its node id in the ast map. -/
structure DefId where
  isLocal : Bool
  node : Nat
deriving DecidableEq, Repr

/-- The fragment of `def::Def` the visitor matches: `DefFn` (with the extra
flag it carries and ignores), `DefStatic` with its mutability, and others. -/
inductive Def where
  | DefFn (did : DefId) (flag : Bool)
  | DefStatic (did : Nat) (mutbl : Bool)
  | DefOther
deriving DecidableEq, Repr

/-- The type-checked program model (`ty::ctxt`): per-node static types
(`ty::expr_ty` / `ty::node_id_to_type`), the method map entry type for a
method call expression, the def map for callee paths, and whether a node is a
foreign item (`ast_map::NodeForeignItem`). -/
structure Ctxt where
  exprTy : Nat → TyKind
  methodTy : Nat → TyKind
  defMap : Nat → Option Def
  isForeignItem : Nat → Bool

/-- Resolution of a path expression (`ty::resolve_expr`): def-map lookup.  The real
function aborts when the id is unresolved; that failure path is not relevant
to any claim, so an unresolved id maps to `DefOther` (which triggers no
classification). -/
def resolve_expr (c : Ctxt) (id : Nat) : Def :=
  (c.defMap id).getD .DefOther

/-- Function kinds (`visit::FnKind`): a named item fn, a named method, or a closure
(`FkFnBlock`), each with the unsafety written on it where applicable. -/
inductive FnKind where
  | FkItemFn (unsafety : Bool)
  | FkMethod (unsafety : Bool)
  | FkFnBlock
deriving DecidableEq, Repr

/-- Block check modes (`ast::BlockCheckMode`): a default block, or an unsafe block together with
whether its source is `CompilerGenerated`. -/
inductive BlockRules where
  | DefaultBlock
  | UnsafeBlock (compilerGenerated : Bool)
deriving DecidableEq, Repr

mutual

/-- The expression shapes distinguished by `visit_expr`
(src/src/visitor.rs lines 183-258), plus the shapes that only matter for the
walk: nested blocks, nested fn-like nodes (items, methods, closures), and a
catch-all with children.  Each node carries its `NodeId` and `Span`. -/
inductive Expr where
  | ExprMethodCall (id : Nat) (sp : Span) (args : ExprList)
  | ExprCall (id : Nat) (sp : Span) (base : Expr) (args : ExprList)
  | ExprUnaryDeref (id : Nat) (sp : Span) (base : Expr)
  | ExprInlineAsm (id : Nat) (sp : Span)
  | ExprPath (id : Nat) (sp : Span) (lastSeg : String)
  | ExprCast (id : Nat) (sp : Span) (source : Expr)
  | ExprBlock (id : Nat) (sp : Span) (b : Block)
  | ExprFn (kind : FnKind) (id : Nat) (sp : Span) (body : Block)
  | ExprOther (id : Nat) (sp : Span) (children : ExprList)

/-- A list of expressions, kept as part of the mutual inductive so the tree
walk is structurally recursive. -/
inductive ExprList where
  | nil
  | cons (e : Expr) (es : ExprList)

/-- A block (`ast::Block`): id, span, check mode, and its statements/tail expression
flattened into one child list. -/
inductive Block where
  | mk (id : Nat) (sp : Span) (rules : BlockRules) (stmts : ExprList)

end

/-- The `NodeId` of an expression node. -/
def Expr.exprId : Expr → Nat
  | .ExprMethodCall id _ _ => id
  | .ExprCall id _ _ _ => id
  | .ExprUnaryDeref id _ _ => id
  | .ExprInlineAsm id _ => id
  | .ExprPath id _ _ => id
  | .ExprCast id _ _ => id
  | .ExprBlock id _ _ => id
  | .ExprFn _ id _ _ => id
  | .ExprOther id _ _ => id

/-- The in-progress record for one unsafe region (`visitor.rs NodeInfo`):
the region's span, whether it is a whole fn, whether it was compiler
generated, and one span list per hazard category.  The raw-pointer cast
field uses the current name `cast_raw_ptr_const_to_mut` (the legacy copy
calls it `cast_raw_ptr_imm_to_mut`; the contents are the same). -/
structure NodeInfo where
  span : Span
  is_fn : Bool
  compiler : Bool
  ffi : List Span
  raw_deref : List Span
  static_mut : List Span
  unsafe_call : List Span
  transmute : List Span
  transmute_imm_to_mut : List Span
  cast_raw_ptr_const_to_mut : List Span
  asm : List Span
deriving DecidableEq, Repr

/-- Constructor `NodeInfo::new`: a fresh record with every category empty. -/
def NodeInfo.new (sp : Span) (is_fn : Bool) (compiler : Bool) : NodeInfo :=
  { span := sp, is_fn := is_fn, compiler := compiler,
    ffi := [], raw_deref := [], static_mut := [], unsafe_call := [],
    transmute := [], transmute_imm_to_mut := [],
    cast_raw_ptr_const_to_mut := [], asm := [] }

/-- The visitor's mutable state: the single-slot active-region cursor
`node_info : Option<(NodeId, NodeInfo)>` and the registry
`unsafes : BTreeMap<NodeId, NodeInfo>`, modelled as the list of committed
`(identity, region)` pairs in commit order. -/
structure VState where
  node_info : Option (Nat × NodeInfo)
  unsafes : List (Nat × NodeInfo)
deriving DecidableEq, Repr

/-- The commit `assert!(self.unsafes.insert(id, info).is_none())`: committing a region
whose identity is already present is a fatal assertion failure, modelled as
`none`; otherwise the pair is added. -/
def registryInsert (id : Nat) (info : NodeInfo) (reg : List (Nat × NodeInfo)) :
    Option (List (Nat × NodeInfo)) :=
  if id ∈ reg.map Prod.fst then none else some (reg ++ [(id, info)])

/-- The registry's keys are pairwise distinct. -/
def NodupKeys (reg : List (Nat × NodeInfo)) : Prop :=
  (reg.map Prod.fst).Nodup

/-- The pointer-cast analyzer `check_ptr_cast` (src/src/visitor.rs lines 107-128): compare the static
types of the source and result expressions; an immutable-to-mutable reference
pair records a reference mutability upgrade, an immutable-to-mutable raw
pointer pair records a raw-pointer mutability upgrade, anything else records
nothing.  Returns the updated record and whether a pattern matched. -/
def checkPtrCast (c : Ctxt) (sp : Span) (fromId toId : Nat) (info : NodeInfo) :
    NodeInfo × Bool :=
  match c.exprTy fromId, c.exprTy toId with
  | .ty_rptr .MutImmutable, .ty_rptr .MutMutable =>
      ({ info with transmute_imm_to_mut := info.transmute_imm_to_mut ++ [sp] }, true)
  | .ty_ptr .MutImmutable, .ty_ptr .MutMutable =>
      ({ info with cast_raw_ptr_const_to_mut := info.cast_raw_ptr_const_to_mut ++ [sp] }, true)
  | _, _ => (info, false)

/-- The foreign-call test of the call fallback arm (src/src/visitor.rs
lines 206-217): the callee's def-map entry is a `DefFn` whose def id is local
and whose node is a foreign item. -/
def isFfiDef (c : Ctxt) (baseId : Nat) : Bool :=
  match c.defMap baseId with
  | some (.DefFn did _) => did.isLocal && c.isForeignItem did.node
  | _ => false

/-- The `_` arm of the `ExprCall` match (src/src/visitor.rs lines 205-227):
a foreign local callee is recorded as ffi; otherwise the call is recorded as
an unsafe call exactly when the callee's static type is an unsafe function
type. -/
def classifyCallFallback (c : Ctxt) (sp : Span) (baseId : Nat) (info : NodeInfo) :
    NodeInfo :=
  if isFfiDef c baseId then { info with ffi := info.ffi ++ [sp] }
  else if type_is_unsafe_function (c.exprTy baseId) then
    { info with unsafe_call := info.unsafe_call ++ [sp] }
  else info

/-- The guard of the transmute arm (src/src/visitor.rs lines 193-198): the
callee is a path expression whose last segment is named `transmute` and there
is exactly one argument. -/
def isTransmuteCallShape : Expr → ExprList → Bool
  | .ExprPath _ _ seg, .cons _ .nil => seg == "transmute"
  | _, _ => false

/-- The body of the `if self.node_info.is_some()` match in `visit_expr`
(src/src/visitor.rs lines 184-255): the operation classifier.  It only ever
mutates the in-progress record of the active region. -/
def classifyExpr (c : Ctxt) (e : Expr) (info : NodeInfo) : NodeInfo :=
  match e with
  | .ExprMethodCall id sp _ =>
      if type_is_unsafe_function (c.methodTy id) then
        { info with unsafe_call := info.unsafe_call ++ [sp] }
      else info
  | .ExprCall id sp base args =>
      match base, args with
      | .ExprPath pid _ seg, .cons arg .nil =>
          if seg == "transmute" then
            let r := checkPtrCast c sp (Expr.exprId arg) id info
            if r.2 then r.1 else { r.1 with transmute := r.1.transmute ++ [sp] }
          else classifyCallFallback c sp pid info
      | _, _ => classifyCallFallback c sp (Expr.exprId base) info
  | .ExprUnaryDeref _ sp base =>
      match c.exprTy (Expr.exprId base) with
      | .ty_ptr _ => { info with raw_deref := info.raw_deref ++ [sp] }
      | _ => info
  | .ExprInlineAsm _ sp => { info with asm := info.asm ++ [sp] }
  | .ExprPath id sp _ =>
      match resolve_expr c id with
      | .DefStatic _ true => { info with static_mut := info.static_mut ++ [sp] }
      | _ => info
  | .ExprCast id sp source => (checkPtrCast c sp (Expr.exprId source) id info).1
  | .ExprBlock _ _ _ => info
  | .ExprFn _ _ _ _ => info
  | .ExprOther _ _ _ => info

/-- The shared leave epilogue of `visit_fn` and `visit_block`
(`match replace(&mut self.node_info, old) { Some((id, info)) =>
assert!(self.unsafes.insert(id, info).is_none()), None => {} }`): commit the
region left in the cursor, if any, and restore `old` into the cursor. -/
def fnEpilogue (old : Option (Nat × NodeInfo)) (st : VState) : Option VState :=
  match st.node_info with
  | some (i, info) => (registryInsert i info st.unsafes).map (fun u => ⟨old, u⟩)
  | none => some ⟨old, st.unsafes⟩

/-- The classifier step of `visit_expr`: when a region is active, replace its
in-progress record by the classified one; otherwise do nothing. -/
def classifyStep (c : Ctxt) (e : Expr) (st : VState) : VState :=
  match st.node_info with
  | some (i, info) => ⟨some (i, classifyExpr c e info), st.unsafes⟩
  | none => st

/-- The enter step of `visit_fn` (src/src/visitor.rs lines 134-148): an
unsafe named item saves the cursor and installs a fresh fn region, a safe
named item saves the cursor and clears it, a closure saves nothing (`None`)
and leaves the cursor alone.  Returns the saved value and the state the body
is walked in. -/
def fnPrologue (kind : FnKind) (node_id : Nat) (spn : Span) (st : VState) :
    Option (Nat × NodeInfo) × VState :=
  match kind with
  | .FkItemFn u =>
      (st.node_info,
        if u then { st with node_info := some (node_id, NodeInfo.new spn true false) }
        else { st with node_info := none })
  | .FkMethod u =>
      (st.node_info,
        if u then { st with node_info := some (node_id, NodeInfo.new spn true false) }
        else { st with node_info := none })
  | .FkFnBlock => (none, st)

mutual

/-- The visitor method `visit_expr` (src/src/visitor.rs lines 183-258) fused with `walk_expr`:
run the classifier when a region is active, then walk the children.  A
nested fn-like node dispatches through the `visit_fn` logic (inlined here
for structural recursion; the standalone `visit_fn` below is proved equal),
a nested block through `visit_block`. -/
def visit_expr (c : Ctxt) (e : Expr) (st : VState) : Option VState :=
  match e with
  | .ExprMethodCall _ _ args => visit_list c args (classifyStep c e st)
  | .ExprCall _ _ base args =>
      (visit_expr c base (classifyStep c e st)).bind (fun s => visit_list c args s)
  | .ExprUnaryDeref _ _ base => visit_expr c base (classifyStep c e st)
  | .ExprInlineAsm _ _ => some (classifyStep c e st)
  | .ExprPath _ _ _ => some (classifyStep c e st)
  | .ExprCast _ _ source => visit_expr c source (classifyStep c e st)
  | .ExprBlock _ _ b => visit_block c b (classifyStep c e st)
  | .ExprFn kind node_id spn body =>
      let p := fnPrologue kind node_id spn (classifyStep c e st)
      (visit_block c body p.2).bind (fnEpilogue p.1)
  | .ExprOther _ _ children => visit_list c children (classifyStep c e st)

/-- Walk a list of sibling nodes left to right, propagating failure. -/
def visit_list (c : Ctxt) (es : ExprList) (st : VState) : Option VState :=
  match es with
  | .nil => some st
  | .cons e es => (visit_expr c e st).bind (fun s => visit_list c es s)

/-- The visitor method `visit_block` (src/src/visitor.rs lines 158-181): a default block is
walked with no state change; an unsafe block opens a fresh region exactly
when no region is active or the block is compiler generated, committing it
on leave; otherwise the block is walked with no state change. -/
def visit_block (c : Ctxt) (b : Block) (st : VState) : Option VState :=
  match b with
  | .mk id spn rules stmts =>
    match rules with
    | .DefaultBlock => visit_list c stmts st
    | .UnsafeBlock compiler =>
        if st.node_info.isNone || compiler then
          (visit_list c stmts ⟨some (id, NodeInfo.new spn false compiler), st.unsafes⟩).bind
            (fnEpilogue st.node_info)
        else visit_list c stmts st

end

/-- The visitor method `visit_fn` (src/src/visitor.rs lines 132-156) as a standalone function:
an unsafe named item opens a fresh fn region, a safe named item clears the
cursor for its body, a closure changes nothing on entry; the body block is
then walked, and the leave epilogue commits whatever region is in the cursor
and restores the saved value (`None` for closures). -/
def visit_fn (c : Ctxt) (kind : FnKind) (node_id : Nat) (spn : Span)
    (body : Block) (st : VState) : Option VState :=
  let p := fnPrologue kind node_id spn st
  (visit_block c body p.2).bind (fnEpilogue p.1)

/-- A whole run, `UnsafeVisitor::new` followed by `check_crate`: walk the crate's items
starting from an empty cursor and an empty registry. -/
def check_crate (c : Ctxt) (krate : ExprList) : Option VState :=
  visit_list c krate ⟨none, []⟩

/-! ## Report filter and formatter, current copy
(`Session::run_library`, src/src/unsafe_ls.rs lines 85-148). -/

/-- The non-FFI hazard count `n` (src/src/unsafe_ls.rs lines 89-95): the sum
of the sizes of the seven non-FFI categories. -/
def otherCount (info : NodeInfo) : Nat :=
  info.raw_deref.length
    + info.static_mut.length
    + info.unsafe_call.length
    + info.asm.length
    + info.transmute.length
    + info.transmute_imm_to_mut.length
    + info.cast_raw_ptr_const_to_mut.length

/-- The FFI hazard count `f` (src/src/unsafe_ls.rs line 97). -/
def ffiCount (info : NodeInfo) : Nat :=
  info.ffi.length

/-- A region produces output (src/src/unsafe_ls.rs lines 87 and 99): it is
skipped when compiler generated, and otherwise reported exactly when
`(nonffi && n > 0) || (ffi && f > 0)`. -/
def reported (nonffi ffi : Bool) (info : NodeInfo) : Bool :=
  !info.compiler
    && ((nonffi && decide (0 < otherCount info))
        || (ffi && decide (0 < ffiCount info)))

/-- The span vector `v` (src/src/unsafe_ls.rs lines 102-118): when `nonffi`
is set, the seven non-FFI category lists in the source's array order, then,
when `ffi` is set, the ffi list. -/
def collectSpans (nonffi ffi : Bool) (info : NodeInfo) : List Span :=
  (if nonffi then
      info.raw_deref ++ info.static_mut ++ info.unsafe_call ++ info.asm
        ++ info.transmute ++ info.transmute_imm_to_mut
        ++ info.cast_raw_ptr_const_to_mut
    else [])
    ++ (if ffi then info.ffi else [])

namespace Bin

/-- The legacy non-FFI hazard count `n` (src/bin.rs lines 54-58): only five
categories are summed; the two mutability-upgrade categories are left out. -/
def otherCount (info : NodeInfo) : Nat :=
  info.raw_deref.length
    + info.static_mut.length
    + info.unsafe_call.length
    + info.asm.length
    + info.transmute.length

/-- The legacy FFI hazard count `f` (src/bin.rs line 60). -/
def ffiCount (info : NodeInfo) : Nat :=
  info.ffi.length

/-- The legacy report condition (src/bin.rs lines 52 and 62). -/
def reported (nonffi ffi : Bool) (info : NodeInfo) : Bool :=
  !info.compiler
    && ((nonffi && decide (0 < Bin.otherCount info))
        || (ffi && decide (0 < Bin.ffiCount info)))

/-- The legacy span vector `v` (src/bin.rs lines 65-79): the same five
categories, then the ffi list. -/
def collectSpans (nonffi ffi : Bool) (info : NodeInfo) : List Span :=
  (if nonffi then
      info.raw_deref ++ info.static_mut ++ info.unsafe_call ++ info.asm
        ++ info.transmute
    else [])
    ++ (if ffi then info.ffi else [])

end Bin

/-- One step of the stable sort `v.sort_by(|a, b| a.lo.cmp(&b.lo))`:
insert a span into an already sorted list, before the first span whose start
offset is not smaller. -/
def insertByLo (s : Span) : List Span → List Span
  | [] => [s]
  | t :: ts => if s.lo ≤ t.lo then s :: t :: ts else t :: insertByLo s ts

/-- The sort `v.sort_by(|a, b| a.lo.cmp(&b.lo))`: sort the collected spans ascending
by source start offset, as insertion sort. -/
def sortByLo (l : List Span) : List Span :=
  l.foldr insertByLo []

/-- The `seen : HashSet` dedup loop (src/src/unsafe_ls.rs lines 133-147):
keep each `(line, file)` pair the first time it appears, drop repeats. -/
def dedupFirst (seen : List (Nat × String)) : List (Nat × String) → List (Nat × String)
  | [] => []
  | t :: ts => if t ∈ seen then dedupFirst seen ts else t :: dedupFirst (t :: seen) ts

/-- The `(line, file)` pairs a region's report prints, in print order: sort
the flag-selected spans by start offset, map each through the codemap
(`span_to_lines`, first line), and keep first occurrences only. -/
def printedPairs (lineOf : Nat → Nat × String) (nonffi ffi : Bool)
    (info : NodeInfo) : List (Nat × String) :=
  dedupFirst [] ((sortByLo (collectSpans nonffi ffi info)).map (fun s => lineOf s.lo))

/-- The complement of the two patterns `check_ptr_cast` recognizes: the type
pair is neither immutable-to-mutable reference nor immutable-to-mutable raw
pointer. -/
def noUpgradePattern (tf tt : TyKind) : Prop :=
  (tf ≠ .ty_rptr .MutImmutable ∨ tt ≠ .ty_rptr .MutMutable)
    ∧ (tf ≠ .ty_ptr .MutImmutable ∨ tt ≠ .ty_ptr .MutMutable)

instance (tf tt : TyKind) : Decidable (noUpgradePattern tf tt) := by
  unfold noUpgradePattern
  infer_instance

/-! ## Concrete program models used by the scenario conjuncts and witnesses -/

/-- A program model in which every lookup is inert. -/
def trivialCtxt : Ctxt :=
  { exprTy := fun _ => .ty_other,
    methodTy := fun _ => .ty_other,
    defMap := fun _ => none,
    isForeignItem := fun _ => false }

/-- Region record of a block at line 19-25 whose only hazard is one
reference mutability upgrade at line 20 (the spec's scenario for claim 1). -/
def claim1Info : NodeInfo :=
  { NodeInfo.new ⟨19, 25⟩ false false with transmute_imm_to_mut := [⟨20, 21⟩] }

/-- A crate holding one unsafe item fn with an empty body. -/
def claim2Crate : ExprList :=
  .cons (.ExprFn (.FkItemFn true) 21 ⟨5, 9⟩ (.mk 22 ⟨6, 8⟩ .DefaultBlock .nil)) .nil

/-- Program model for the claim 3 scenario: node 14 is a raw-pointer-typed
path, everything else is inert. -/
def claim3Ctxt : Ctxt :=
  { trivialCtxt with exprTy := fun n => if n == 14 then .ty_ptr .MutImmutable else .ty_other }

/-- Closure body: a dereference (node 13) of the raw-pointer path (node 14). -/
def claim3ClosureBody : Block :=
  .mk 12 ⟨125, 175⟩ .DefaultBlock
    (.cons (.ExprUnaryDeref 13 ⟨150, 152⟩ (.ExprPath 14 ⟨150, 152⟩ "p")) .nil)

/-- An unsafe block (node 10) whose only statement is a closure (node 11)
containing the raw-pointer dereference. -/
def claim3UnsafeB : Block :=
  .mk 10 ⟨100, 200⟩ (.UnsafeBlock false)
    (.cons (.ExprFn .FkFnBlock 11 ⟨120, 180⟩ claim3ClosureBody) .nil)

/-- A crate with one safe item fn whose body holds the unsafe block. -/
def claim3Crate : ExprList :=
  .cons
    (.ExprFn (.FkItemFn false) 1 ⟨0, 300⟩
      (.mk 2 ⟨0, 300⟩ .DefaultBlock (.cons (.ExprBlock 3 ⟨100, 200⟩ claim3UnsafeB) .nil)))
    .nil

/-- Program model for the claim 4 scenario: node 4 is a raw-pointer-typed
path, everything else is inert. -/
def claim4Ctxt : Ctxt :=
  { trivialCtxt with exprTy := fun n => if n == 4 then .ty_ptr .MutImmutable else .ty_other }

/-- Inner author-written unsafe block (node 2) holding the only hazard, a
raw-pointer dereference (node 3). -/
def claim4Inner : Block :=
  .mk 2 ⟨20, 40⟩ (.UnsafeBlock false)
    (.cons (.ExprUnaryDeref 3 ⟨30, 31⟩ (.ExprPath 4 ⟨30, 31⟩ "p")) .nil)

/-- Outer author-written unsafe block (node 1) directly containing the inner
unsafe block. -/
def claim4Outer : Block :=
  .mk 1 ⟨10, 50⟩ (.UnsafeBlock false)
    (.cons (.ExprBlock 5 ⟨20, 40⟩ claim4Inner) .nil)

/-- An author-written unsafe block with an empty body: a region with zero
hazards. -/
def claim5Block : Block :=
  .mk 7 ⟨70, 80⟩ (.UnsafeBlock false) .nil

/-- A region record with two dereference hazards recorded out of source
order, both on the same source line under `claim8LineOf`. -/
def claim8Info : NodeInfo :=
  { NodeInfo.new ⟨0, 9⟩ false false with raw_deref := [⟨35, 36⟩, ⟨31, 32⟩] }

/-- A codemap sending every offset below 40 to line 5 of `a.rs`. -/
def claim8LineOf : Nat → Nat × String :=
  fun n => if n < 40 then (5, "a.rs") else (9, "a.rs")

/-- Program model for the claim 6 witness: node 100 (the transmute argument)
has immutable-reference type and node 101 (the call) mutable-reference
type. -/
def claim6Ctxt : Ctxt :=
  { trivialCtxt with
      exprTy := fun n =>
        if n == 100 then .ty_rptr .MutImmutable
        else if n == 101 then .ty_rptr .MutMutable
        else .ty_other }

/-- Program model for the claim 7 witness: callee 200 resolves to a local
`DefFn` whose node 5 is a foreign item; callee 201 resolves to a cross-crate
`DefFn` and has unsafe bare-fn type. -/
def claim7Ctxt : Ctxt :=
  { exprTy := fun n => if n == 201 then .ty_bare_fn true else .ty_other,
    methodTy := fun _ => .ty_other,
    defMap := fun n =>
      if n == 200 then some (.DefFn ⟨true, 5⟩ false)
      else if n == 201 then some (.DefFn ⟨false, 6⟩ false)
      else none,
    isForeignItem := fun n => n == 5 }

/-! ## Shared lemmas about the visitor state machine -/

theorem classifyStep_unsafes (c : Ctxt) (e : Expr) (st : VState) :
    (classifyStep c e st).unsafes = st.unsafes := by
  unfold classifyStep
  rcases h : st.node_info with _ | ⟨i, info⟩ <;> simp [h]

theorem fnPrologue_unsafes (kind : FnKind) (node_id : Nat) (spn : Span) (st : VState) :
    ((fnPrologue kind node_id spn st).2).unsafes = st.unsafes := by
  cases kind with
  | FkItemFn u => cases u <;> rfl
  | FkMethod u => cases u <;> rfl
  | FkFnBlock => rfl

theorem fnEpilogue_node_info (old : Option (Nat × NodeInfo)) (st st' : VState)
    (h : fnEpilogue old st = some st') : st'.node_info = old := by
  unfold fnEpilogue at h
  rcases hn : st.node_info with _ | ⟨i, info⟩ <;> rw [hn] at h
  · simp only [Option.some.injEq] at h
    rw [← h]
  · rcases Option.map_eq_some'.mp h with ⟨u, _, hu⟩
    rw [← hu]

theorem registryInsert_none_of_mem (i : Nat) (inf : NodeInfo)
    (reg : List (Nat × NodeInfo)) (h : i ∈ reg.map Prod.fst) :
    registryInsert i inf reg = none := by
  simp [registryInsert, h]

theorem registryInsert_some (i : Nat) (inf : NodeInfo)
    (reg reg' : List (Nat × NodeInfo)) (h : registryInsert i inf reg = some reg') :
    reg' = reg ++ [(i, inf)] ∧ i ∉ reg.map Prod.fst := by
  unfold registryInsert at h
  split at h
  · exact absurd h (by simp)
  · simp only [Option.some.injEq] at h
    exact ⟨h.symm, by assumption⟩

theorem registryInsert_nodup (i : Nat) (inf : NodeInfo)
    (reg reg' : List (Nat × NodeInfo)) (h : registryInsert i inf reg = some reg')
    (hn : NodupKeys reg) : NodupKeys reg' := by
  obtain ⟨he, hmem⟩ := registryInsert_some i inf reg reg' h
  subst he
  unfold NodupKeys at hn ⊢
  rw [List.map_append, List.nodup_append]
  refine ⟨hn, by simp, ?_⟩
  intro a ha hai
  simp only [List.map_cons, List.map_nil, List.mem_singleton] at hai
  exact hmem (hai ▸ ha)

theorem fnEpilogue_nodup (old : Option (Nat × NodeInfo)) (st st' : VState)
    (h : fnEpilogue old st = some st') (hn : NodupKeys st.unsafes) :
    NodupKeys st'.unsafes := by
  unfold fnEpilogue at h
  rcases hni : st.node_info with _ | ⟨i, info⟩ <;> rw [hni] at h
  · simp only [Option.some.injEq] at h
    rw [← h]
    exact hn
  · rcases Option.map_eq_some'.mp h with ⟨u, hu, hs⟩
    rw [← hs]
    exact registryInsert_nodup i info st.unsafes u hu hn

mutual

theorem visit_expr_nodup (c : Ctxt) (e : Expr) (st st' : VState)
    (h : visit_expr c e st = some st') (hn : NodupKeys st.unsafes) :
    NodupKeys st'.unsafes := by
  cases e with
  | ExprMethodCall id sp args =>
      replace h : visit_list c args (classifyStep c (.ExprMethodCall id sp args) st) = some st' := h
      exact visit_list_nodup c args _ st' h (by rw [classifyStep_unsafes]; exact hn)
  | ExprCall id sp base args =>
      replace h : (visit_expr c base (classifyStep c (.ExprCall id sp base args) st)).bind
          (fun s => visit_list c args s) = some st' := h
      obtain ⟨mid, h1, h2⟩ := Option.bind_eq_some.mp h
      exact visit_list_nodup c args mid st' h2
        (visit_expr_nodup c base _ mid h1 (by rw [classifyStep_unsafes]; exact hn))
  | ExprUnaryDeref id sp base =>
      replace h : visit_expr c base (classifyStep c (.ExprUnaryDeref id sp base) st) = some st' := h
      exact visit_expr_nodup c base _ st' h (by rw [classifyStep_unsafes]; exact hn)
  | ExprInlineAsm id sp =>
      replace h : some (classifyStep c (.ExprInlineAsm id sp) st) = some st' := h
      simp only [Option.some.injEq] at h
      rw [← h, classifyStep_unsafes]
      exact hn
  | ExprPath id sp seg =>
      replace h : some (classifyStep c (.ExprPath id sp seg) st) = some st' := h
      simp only [Option.some.injEq] at h
      rw [← h, classifyStep_unsafes]
      exact hn
  | ExprCast id sp source =>
      replace h : visit_expr c source (classifyStep c (.ExprCast id sp source) st) = some st' := h
      exact visit_expr_nodup c source _ st' h (by rw [classifyStep_unsafes]; exact hn)
  | ExprBlock id sp b =>
      replace h : visit_block c b (classifyStep c (.ExprBlock id sp b) st) = some st' := h
      exact visit_block_nodup c b _ st' h (by rw [classifyStep_unsafes]; exact hn)
  | ExprFn kind node_id spn body =>
      replace h : (visit_block c body
            (fnPrologue kind node_id spn (classifyStep c (.ExprFn kind node_id spn body) st)).2).bind
          (fnEpilogue (fnPrologue kind node_id spn (classifyStep c (.ExprFn kind node_id spn body) st)).1)
          = some st' := h
      obtain ⟨mid, h1, h2⟩ := Option.bind_eq_some.mp h
      refine fnEpilogue_nodup _ mid st' h2 ?_
      exact visit_block_nodup c body _ mid h1
        (by rw [fnPrologue_unsafes, classifyStep_unsafes]; exact hn)
  | ExprOther id sp children =>
      replace h : visit_list c children (classifyStep c (.ExprOther id sp children) st) = some st' := h
      exact visit_list_nodup c children _ st' h (by rw [classifyStep_unsafes]; exact hn)

theorem visit_list_nodup (c : Ctxt) (es : ExprList) (st st' : VState)
    (h : visit_list c es st = some st') (hn : NodupKeys st.unsafes) :
    NodupKeys st'.unsafes := by
  cases es with
  | nil =>
      replace h : some st = some st' := h
      simp only [Option.some.injEq] at h
      rw [← h]
      exact hn
  | cons e es =>
      replace h : (visit_expr c e st).bind (fun s => visit_list c es s) = some st' := h
      obtain ⟨mid, h1, h2⟩ := Option.bind_eq_some.mp h
      exact visit_list_nodup c es mid st' h2 (visit_expr_nodup c e st mid h1 hn)

theorem visit_block_nodup (c : Ctxt) (b : Block) (st st' : VState)
    (h : visit_block c b st = some st') (hn : NodupKeys st.unsafes) :
    NodupKeys st'.unsafes := by
  cases b with
  | mk id spn rules stmts =>
    cases rules with
    | DefaultBlock =>
        replace h : visit_list c stmts st = some st' := h
        exact visit_list_nodup c stmts st st' h hn
    | UnsafeBlock compiler =>
        replace h : (if st.node_info.isNone || compiler then
            (visit_list c stmts ⟨some (id, NodeInfo.new spn false compiler), st.unsafes⟩).bind
              (fnEpilogue st.node_info)
          else visit_list c stmts st) = some st' := h
        split at h
        · obtain ⟨mid, h1, h2⟩ := Option.bind_eq_some.mp h
          exact fnEpilogue_nodup _ mid st' h2 (visit_list_nodup c stmts _ mid h1 hn)
        · exact visit_list_nodup c stmts st st' h hn

end

/-! ## Lemmas about span sorting and line dedup -/

theorem insertByLo_perm (s : Span) (l : List Span) : List.Perm (insertByLo s l) (s :: l) := by
  induction l with
  | nil => exact .refl _
  | cons t ts ih =>
      unfold insertByLo
      split
      · exact .refl _
      · exact (List.Perm.cons t ih).trans (List.Perm.swap s t ts)

theorem sortByLo_perm (l : List Span) : List.Perm (sortByLo l) l := by
  induction l with
  | nil => exact .refl _
  | cons t ts ih =>
      have : sortByLo (t :: ts) = insertByLo t (sortByLo ts) := rfl
      rw [this]
      exact (insertByLo_perm t (sortByLo ts)).trans (List.Perm.cons t ih)

theorem sorted_insertByLo (s : Span) (l : List Span)
    (h : l.Sorted (fun a b => a.lo ≤ b.lo)) :
    (insertByLo s l).Sorted (fun a b => a.lo ≤ b.lo) := by
  induction l with
  | nil => simp [insertByLo]
  | cons t ts ih =>
      rw [List.sorted_cons] at h
      unfold insertByLo
      split
      · rw [List.sorted_cons]
        refine ⟨?_, List.sorted_cons.mpr h⟩
        intro b hb
        rcases List.mem_cons.mp hb with hb | hb
        · subst hb; assumption
        · exact le_trans (by assumption) (h.1 b hb)
      · rw [List.sorted_cons]
        refine ⟨?_, ih h.2⟩
        intro b hb
        have hb' := (insertByLo_perm s ts).mem_iff.mp hb
        rcases List.mem_cons.mp hb' with rfl | hb''
        · exact le_of_not_le (by assumption)
        · exact h.1 b hb''

theorem sorted_sortByLo (l : List Span) :
    (sortByLo l).Sorted (fun a b => a.lo ≤ b.lo) := by
  induction l with
  | nil => simp [sortByLo]
  | cons t ts ih => exact sorted_insertByLo t (sortByLo ts) ih

theorem mem_dedupFirst (seen l : List (Nat × String)) (x : Nat × String) :
    x ∈ dedupFirst seen l ↔ x ∈ l ∧ x ∉ seen := by
  induction l generalizing seen with
  | nil => simp [dedupFirst]
  | cons t ts ih =>
      unfold dedupFirst
      split
      · rw [ih]
        simp only [List.mem_cons]
        constructor
        · rintro ⟨hx, hs⟩
          exact ⟨Or.inr hx, hs⟩
        · rintro ⟨hx | hx, hs⟩
          · subst hx; exact absurd (by assumption) hs
          · exact ⟨hx, hs⟩
      · simp only [List.mem_cons, ih, List.mem_cons, not_or]
        constructor
        · rintro (rfl | ⟨hx, hne, hs⟩)
          · exact ⟨Or.inl rfl, by assumption⟩
          · exact ⟨Or.inr hx, hs⟩
        · rintro ⟨rfl | hx, hs⟩
          · exact Or.inl rfl
          · by_cases hxt : x = t
            · exact Or.inl hxt
            · exact Or.inr ⟨hx, hxt, hs⟩

theorem nodup_dedupFirst (seen l : List (Nat × String)) :
    (dedupFirst seen l).Nodup := by
  induction l generalizing seen with
  | nil => simp [dedupFirst]
  | cons t ts ih =>
      unfold dedupFirst
      split
      · exact ih seen
      · rw [List.nodup_cons]
        refine ⟨?_, ih (t :: seen)⟩
        intro hmem
        exact absurd (List.mem_cons_self t seen) (mem_dedupFirst (t :: seen) ts t |>.mp hmem).2

theorem dedupFirst_sublist (seen l : List (Nat × String)) :
    (dedupFirst seen l).Sublist l := by
  induction l generalizing seen with
  | nil => simp [dedupFirst]
  | cons t ts ih =>
      unfold dedupFirst
      split
      · exact (ih seen).cons t
      · exact (ih (t :: seen)).cons₂ t

theorem checkPtrCast_no_match (c : Ctxt) (sp : Span) (fromId toId : Nat)
    (info : NodeInfo) (h : noUpgradePattern (c.exprTy fromId) (c.exprTy toId)) :
    checkPtrCast c sp fromId toId info = (info, false) := by
  unfold checkPtrCast
  split
  · exfalso
    rcases h.1 with h' | h' <;> exact h' (by assumption)
  · exfalso
    rcases h.2 with h' | h' <;> exact h' (by assumption)
  · rfl

theorem checkPtrCast_spec (c : Ctxt) (sp : Span) (fromId toId : Nat) (info : NodeInfo) :
    checkPtrCast c sp fromId toId info
        = ({ info with transmute_imm_to_mut := info.transmute_imm_to_mut ++ [sp] }, true)
      ∨ checkPtrCast c sp fromId toId info
          = ({ info with cast_raw_ptr_const_to_mut := info.cast_raw_ptr_const_to_mut ++ [sp] }, true)
      ∨ checkPtrCast c sp fromId toId info = (info, false) := by
  unfold checkPtrCast
  split
  · exact Or.inl rfl
  · exact Or.inr (Or.inl rfl)
  · exact Or.inr (Or.inr rfl)

theorem classify_call_not_transmute (c : Ctxt) (id : Nat) (sp : Span) (base : Expr)
    (args : ExprList) (info : NodeInfo) (h : isTransmuteCallShape base args = false) :
    classifyExpr c (.ExprCall id sp base args) info
      = classifyCallFallback c sp base.exprId info := by
  cases base <;> cases args <;> try rfl
  all_goals rename_i arg es
  all_goals cases es <;> try rfl
  simp only [isTransmuteCallShape] at h
  simp [classifyExpr, Expr.exprId, h]

/-! ## The claims -/

/-- Claim C1, counterexample to the claim as stated: in the legacy formatter
(src/bin.rs lines 54-58) `otherCount` is not the sum of all seven non-FFI
category sizes — on a region whose only hazard is one reference mutability
upgrade it is `0` while the seven-category sum is `1`, and the region is not
reported even though `wantOther` is set. -/
theorem claim1_cex :
    Bin.otherCount claim1Info = 0
      ∧ claim1Info.raw_deref.length + claim1Info.static_mut.length
          + claim1Info.unsafe_call.length + claim1Info.asm.length
          + claim1Info.transmute.length + claim1Info.transmute_imm_to_mut.length
          + claim1Info.cast_raw_ptr_const_to_mut.length = 1
      ∧ claim1Info.compiler = false
      ∧ Bin.reported true false claim1Info = false
      ∧ Bin.collectSpans true false claim1Info = [] := by
  refine ⟨rfl, rfl, rfl, by decide, rfl⟩

/-- Claim C1 (amended): in the current formatter (src/src/unsafe_ls.rs lines
89-97) `otherCount` is the sum of the sizes of the seven non-FFI hazard
categories and `ffiCount` is the size of the foreign-call category, and a
non-compiler-generated region whose reference-mutability-upgrade category is
nonempty is reported when `wantOther` is set, with every such span among the
collected spans; the legacy formatter (src/bin.rs lines 54-58) instead sums
only five categories, omitting the two mutability-upgrade categories, so a
region whose only hazards are mutability upgrades is not reported there. -/
theorem claim1_thm : ∀ (info : NodeInfo) (b : Bool),
    otherCount info
        = info.raw_deref.length + info.static_mut.length + info.unsafe_call.length
          + info.asm.length + info.transmute.length + info.transmute_imm_to_mut.length
          + info.cast_raw_ptr_const_to_mut.length
      ∧ ffiCount info = info.ffi.length
      ∧ Bin.otherCount info
          = info.raw_deref.length + info.static_mut.length + info.unsafe_call.length
            + info.asm.length + info.transmute.length
      ∧ (info.compiler = false → 0 < info.transmute_imm_to_mut.length →
          reported true b info = true
            ∧ ∀ s ∈ info.transmute_imm_to_mut, s ∈ collectSpans true b info)
      ∧ (info.raw_deref = [] → info.static_mut = [] → info.unsafe_call = [] →
          info.asm = [] → info.transmute = [] → Bin.reported true false info = false) := by
  intro info b
  refine ⟨rfl, rfl, rfl, ?_, ?_⟩
  · intro hc ht
    have h0 : 0 < otherCount info := by unfold otherCount; omega
    refine ⟨by simp [reported, hc, h0], ?_⟩
    intro s hs
    simp [collectSpans, hs]
  · intro h1 h2 h3 h4 h5
    simp [Bin.reported, Bin.otherCount, h1, h2, h3, h4, h5]

/-- Witness for claim C1's theorem at the scenario region: only one
reference mutability upgrade recorded, reported by the current formatter and
silently dropped by the legacy one. -/
theorem claim1_witness :
    (claim1Info.compiler = false ∧ 0 < claim1Info.transmute_imm_to_mut.length)
      ∧ (reported true false claim1Info = true
          ∧ ∀ s ∈ claim1Info.transmute_imm_to_mut, s ∈ collectSpans true false claim1Info)
      ∧ Bin.reported true false claim1Info = false :=
  ⟨⟨rfl, by decide⟩,
    (claim1_thm claim1Info false).2.2.2.1 rfl (by decide),
    (claim1_thm claim1Info false).2.2.2.2 rfl rfl rfl rfl rfl⟩

/-- Claim C5: a region produces output iff it is not compiler generated and
((wantOther and otherCount > 0) or (wantFFI and ffiCount > 0)); a region
with zero hazards is still tracked (the empty unsafe block lands in the
registry) but reported under no flag combination, and a compiler-generated
region is reported under no flags. -/
theorem claim5_thm : ∀ (nonffi ffi : Bool) (info : NodeInfo),
    (reported nonffi ffi info = true ↔
      (info.compiler = false
        ∧ ((nonffi = true ∧ 0 < otherCount info) ∨ (ffi = true ∧ 0 < ffiCount info))))
      ∧ (otherCount info = 0 → ffiCount info = 0 → reported nonffi ffi info = false)
      ∧ (info.compiler = true → reported nonffi ffi info = false)
      ∧ visit_block trivialCtxt claim5Block ⟨none, []⟩
          = some ⟨none, [(7, NodeInfo.new ⟨70, 80⟩ false false)]⟩
      ∧ (∀ n f : Bool, reported n f (NodeInfo.new ⟨70, 80⟩ false false) = false) := by
  intro nonffi ffi info
  refine ⟨?_, ?_, ?_, by decide, by decide⟩
  · simp [reported]
  · intro h1 h2
    simp [reported, h1, h2]
  · intro h
    simp [reported, h]

/-- Witness for claim C5's theorem: the empty-region record has zero counts
and is not reported even with both flags set. -/
theorem claim5_witness :
    (otherCount (NodeInfo.new ⟨70, 80⟩ false false) = 0
        ∧ ffiCount (NodeInfo.new ⟨70, 80⟩ false false) = 0)
      ∧ reported true true (NodeInfo.new ⟨70, 80⟩ false false) = false :=
  ⟨⟨rfl, rfl⟩, (claim5_thm true true (NodeInfo.new ⟨70, 80⟩ false false)).2.1 rfl rfl⟩

/-- Claim C2: committing a region under an identity already present in the
registry is detected and fatal (`registryInsert` returns `none`, never a
silent overwrite); a successful insert appends the pair and certifies the
identity was fresh; consequently, over any whole successful run the registry
holds pairwise-distinct identities — each `(identity, region)` pair was
inserted exactly once. -/
theorem claim2_thm :
    (∀ (i : Nat) (inf : NodeInfo) (reg : List (Nat × NodeInfo)),
        i ∈ reg.map Prod.fst → registryInsert i inf reg = none)
      ∧ (∀ (i : Nat) (inf : NodeInfo) (reg reg' : List (Nat × NodeInfo)),
          registryInsert i inf reg = some reg' →
            reg' = reg ++ [(i, inf)] ∧ i ∉ reg.map Prod.fst)
      ∧ (∀ (c : Ctxt) (krate : ExprList) (st' : VState),
          check_crate c krate = some st' → NodupKeys st'.unsafes) := by
  refine ⟨registryInsert_none_of_mem, registryInsert_some, ?_⟩
  intro c krate st' h
  exact visit_list_nodup c krate ⟨none, []⟩ st' h (by simp [NodupKeys])

/-- Witness for claim C2's theorem: a duplicate insert of identity 21 is
rejected, and the one-unsafe-fn crate's run ends with a duplicate-free
registry. -/
theorem claim2_witness :
    registryInsert 21 (NodeInfo.new ⟨5, 9⟩ true false)
        [(21, NodeInfo.new ⟨5, 9⟩ true false)] = none
      ∧ NodupKeys [(21, NodeInfo.new ⟨5, 9⟩ true false)] :=
  ⟨claim2_thm.1 21 (NodeInfo.new ⟨5, 9⟩ true false)
      [(21, NodeInfo.new ⟨5, 9⟩ true false)] (by decide),
    claim2_thm.2.2 trivialCtxt claim2Crate
      ⟨none, [(21, NodeInfo.new ⟨5, 9⟩ true false)]⟩ (by decide)⟩

/-- Claim C3: entering a named item fn or method replaces the active-region
cursor for the duration of its body (a fresh fn region when the item is
unsafe, nothing when it is safe, so nothing in a safe named item's body can
touch — be attributed to — the enclosing in-progress region), and on leave
the previous cursor value is restored unchanged; entering a closure leaves
the cursor untouched, so the closure body is walked in the enclosing state
and a hazard inside it lands in the enclosing region, as the concrete
closure-with-deref crate shows: the dereference is committed under the
enclosing unsafe block's identity 10, and no separate closure region
exists. -/
theorem claim3_thm : ∀ (c : Ctxt) (node_id : Nat) (spn : Span) (body : Block) (st : VState),
    (visit_fn c (.FkItemFn false) node_id spn body st
        = (visit_block c body { st with node_info := none }).bind (fnEpilogue st.node_info))
      ∧ (visit_fn c (.FkMethod false) node_id spn body st
          = (visit_block c body { st with node_info := none }).bind (fnEpilogue st.node_info))
      ∧ (visit_fn c (.FkItemFn true) node_id spn body st
          = (visit_block c body
                { st with node_info := some (node_id, NodeInfo.new spn true false) }).bind
              (fnEpilogue st.node_info))
      ∧ (∀ (u : Bool) (st' : VState),
          visit_fn c (.FkItemFn u) node_id spn body st = some st' →
            st'.node_info = st.node_info)
      ∧ (∀ (u : Bool) (st' : VState),
          visit_fn c (.FkMethod u) node_id spn body st = some st' →
            st'.node_info = st.node_info)
      ∧ (visit_fn c .FkFnBlock node_id spn body st
          = (visit_block c body st).bind (fnEpilogue none))
      ∧ check_crate claim3Ctxt claim3Crate
          = some ⟨none, [(10, { NodeInfo.new ⟨100, 200⟩ false false with
                                  raw_deref := [⟨150, 152⟩] })]⟩ := by
  intro c node_id spn body st
  refine ⟨rfl, rfl, rfl, ?_, ?_, rfl, by decide⟩
  · intro u st' h
    replace h : (visit_block c body (fnPrologue (.FkItemFn u) node_id spn st).2).bind
        (fnEpilogue (fnPrologue (.FkItemFn u) node_id spn st).1) = some st' := h
    obtain ⟨mid, _, h2⟩ := Option.bind_eq_some.mp h
    exact fnEpilogue_node_info _ mid st' h2
  · intro u st' h
    replace h : (visit_block c body (fnPrologue (.FkMethod u) node_id spn st).2).bind
        (fnEpilogue (fnPrologue (.FkMethod u) node_id spn st).1) = some st' := h
    obtain ⟨mid, _, h2⟩ := Option.bind_eq_some.mp h
    exact fnEpilogue_node_info _ mid st' h2

/-- Witness for claim C3's theorem: for a safe item fn with an empty body
entered while region 1 is active, the cursor after the visit equals the
cursor before it. -/
theorem claim3_witness :
    visit_fn trivialCtxt (.FkItemFn false) 2 ⟨1, 4⟩ (.mk 3 ⟨2, 3⟩ .DefaultBlock .nil)
        ⟨some (1, NodeInfo.new ⟨0, 9⟩ false false), []⟩
        = some ⟨some (1, NodeInfo.new ⟨0, 9⟩ false false), []⟩
      ∧ (⟨some (1, NodeInfo.new ⟨0, 9⟩ false false),
            ([] : List (Nat × NodeInfo))⟩ : VState).node_info
          = some (1, NodeInfo.new ⟨0, 9⟩ false false) :=
  ⟨by decide,
    (claim3_thm trivialCtxt 2 ⟨1, 4⟩ (.mk 3 ⟨2, 3⟩ .DefaultBlock .nil)
        ⟨some (1, NodeInfo.new ⟨0, 9⟩ false false), []⟩).2.2.2.1 false
      ⟨some (1, NodeInfo.new ⟨0, 9⟩ false false), []⟩ (by decide)⟩

/-- Claim C4: an unsafe block opens a new region (with `is_fn = false`)
exactly when no region is active or the block is compiler generated; when a
region is already active and the block is author written, the block is
walked with no state change, so inner hazards accumulate into the already
open region — concretely, the nested author-written unsafe blocks with the
dereference only inside the inner one produce exactly one registry entry,
under the outer block's identity 1, with the dereference counted. -/
theorem claim4_thm : ∀ (c : Ctxt) (id : Nat) (spn : Span) (compiler : Bool)
    (stmts : ExprList) (st : VState),
    ((st.node_info = none ∨ compiler = true) →
        visit_block c (.mk id spn (.UnsafeBlock compiler) stmts) st
          = (visit_list c stmts ⟨some (id, NodeInfo.new spn false compiler), st.unsafes⟩).bind
              (fnEpilogue st.node_info))
      ∧ (∀ r : Nat × NodeInfo, st.node_info = some r → compiler = false →
          visit_block c (.mk id spn (.UnsafeBlock compiler) stmts) st
            = visit_list c stmts st)
      ∧ visit_block claim4Ctxt claim4Outer ⟨none, []⟩
          = some ⟨none, [(1, { NodeInfo.new ⟨10, 50⟩ false false with
                                raw_deref := [⟨30, 31⟩] })]⟩ := by
  intro c id spn compiler stmts st
  have hdef : visit_block c (.mk id spn (.UnsafeBlock compiler) stmts) st
      = if st.node_info.isNone || compiler then
          (visit_list c stmts ⟨some (id, NodeInfo.new spn false compiler), st.unsafes⟩).bind
            (fnEpilogue st.node_info)
        else visit_list c stmts st := rfl
  refine ⟨?_, ?_, by decide⟩
  · intro h
    have hcond : (st.node_info.isNone || compiler) = true := by
      rcases h with h | h <;> simp [h]
    rw [hdef, if_pos hcond]
  · intro r h1 h2
    have hcond : ¬((st.node_info.isNone || compiler) = true) := by
      simp [h1, h2]
    rw [hdef, if_neg hcond]

/-- Witness for claim C4's theorem: a fresh unsafe block from the empty
state opens its own region, and the same block entered under an active
author-written region is walked with no state change. -/
theorem claim4_witness :
    ((⟨none, ([] : List (Nat × NodeInfo))⟩ : VState).node_info = none ∨ false = true)
      ∧ visit_block trivialCtxt (.mk 7 ⟨70, 80⟩ (.UnsafeBlock false) .nil) ⟨none, []⟩
          = (visit_list trivialCtxt .nil ⟨some (7, NodeInfo.new ⟨70, 80⟩ false false), []⟩).bind
              (fnEpilogue none)
      ∧ visit_block trivialCtxt (.mk 8 ⟨75, 78⟩ (.UnsafeBlock false) .nil)
            ⟨some (1, NodeInfo.new ⟨0, 9⟩ false false), []⟩
          = visit_list trivialCtxt .nil ⟨some (1, NodeInfo.new ⟨0, 9⟩ false false), []⟩ :=
  ⟨Or.inl rfl,
    (claim4_thm trivialCtxt 7 ⟨70, 80⟩ false .nil ⟨none, []⟩).1 (Or.inl rfl),
    (claim4_thm trivialCtxt 8 ⟨75, 78⟩ false .nil
        ⟨some (1, NodeInfo.new ⟨0, 9⟩ false false), []⟩).2.1
      (1, NodeInfo.new ⟨0, 9⟩ false false) rfl rfl⟩

/-- Claim C6: a one-argument call to a path ending in `transmute`, and an
explicit cast, whose source type is an immutable reference and whose result
type is a mutable reference, is recorded as a reference mutability upgrade
(the generic `transmute` category is left untouched, so the specific rule
wins), and analogously for immutable-to-mutable raw pointers; a one-argument
transmute call matching neither pattern is recorded as a generic type
reinterpretation. -/
theorem claim6_thm : ∀ (c : Ctxt) (id pid : Nat) (sp psp : Span) (arg : Expr)
    (info : NodeInfo),
    (c.exprTy arg.exprId = .ty_rptr .MutImmutable → c.exprTy id = .ty_rptr .MutMutable →
        classifyExpr c (.ExprCall id sp (.ExprPath pid psp "transmute") (.cons arg .nil)) info
          = { info with transmute_imm_to_mut := info.transmute_imm_to_mut ++ [sp] })
      ∧ (c.exprTy arg.exprId = .ty_ptr .MutImmutable → c.exprTy id = .ty_ptr .MutMutable →
          classifyExpr c (.ExprCall id sp (.ExprPath pid psp "transmute") (.cons arg .nil)) info
            = { info with cast_raw_ptr_const_to_mut := info.cast_raw_ptr_const_to_mut ++ [sp] })
      ∧ (noUpgradePattern (c.exprTy arg.exprId) (c.exprTy id) →
          classifyExpr c (.ExprCall id sp (.ExprPath pid psp "transmute") (.cons arg .nil)) info
            = { info with transmute := info.transmute ++ [sp] })
      ∧ (∀ source : Expr, c.exprTy source.exprId = .ty_rptr .MutImmutable →
          c.exprTy id = .ty_rptr .MutMutable →
            classifyExpr c (.ExprCast id sp source) info
              = { info with transmute_imm_to_mut := info.transmute_imm_to_mut ++ [sp] })
      ∧ (∀ source : Expr, c.exprTy source.exprId = .ty_ptr .MutImmutable →
          c.exprTy id = .ty_ptr .MutMutable →
            classifyExpr c (.ExprCast id sp source) info
              = { info with cast_raw_ptr_const_to_mut := info.cast_raw_ptr_const_to_mut ++ [sp] }) := by
  intro c id pid sp psp arg info
  refine ⟨?_, ?_, ?_, ?_, ?_⟩
  · intro h1 h2
    simp [classifyExpr, checkPtrCast, h1, h2]
  · intro h1 h2
    simp [classifyExpr, checkPtrCast, h1, h2]
  · intro h
    have hc := checkPtrCast_no_match c sp arg.exprId id info h
    simp [classifyExpr, hc]
  · intro source h1 h2
    simp [classifyExpr, checkPtrCast, h1, h2]
  · intro source h1 h2
    simp [classifyExpr, checkPtrCast, h1, h2]

/-- Witness for claim C6's theorem: a one-argument transmute of an
immutable-reference-typed argument (node 100) at a call (node 101) typed as
a mutable reference records exactly one reference mutability upgrade. -/
theorem claim6_witness :
    (claim6Ctxt.exprTy (Expr.exprId (.ExprPath 100 ⟨20, 21⟩ "r")) = .ty_rptr .MutImmutable
        ∧ claim6Ctxt.exprTy 101 = .ty_rptr .MutMutable)
      ∧ classifyExpr claim6Ctxt
          (.ExprCall 101 ⟨20, 23⟩ (.ExprPath 102 ⟨20, 21⟩ "transmute")
            (.cons (.ExprPath 100 ⟨20, 21⟩ "r") .nil))
          (NodeInfo.new ⟨19, 25⟩ false false)
        = { NodeInfo.new ⟨19, 25⟩ false false with transmute_imm_to_mut := [⟨20, 23⟩] } :=
  ⟨⟨rfl, rfl⟩,
    (claim6_thm claim6Ctxt 101 102 ⟨20, 23⟩ ⟨20, 21⟩ (.ExprPath 100 ⟨20, 21⟩ "r")
        (NodeInfo.new ⟨19, 25⟩ false false)).1 rfl rfl⟩

/-- Claim C7: for a call that is not a one-argument transmute, the
classifier runs the fallback arm; there, foreign-call is recorded exactly
when the callee's def-map entry is a `DefFn` that is local and a foreign
item; a callee resolving outside the current program (non-local) is never
foreign-call and is recorded as an unsafe call exactly when the callee's
static type is an unsafe function type. -/
theorem claim7_thm : ∀ (c : Ctxt) (id : Nat) (sp : Span) (base : Expr)
    (args : ExprList) (info : NodeInfo),
    (isTransmuteCallShape base args = false →
        classifyExpr c (.ExprCall id sp base args) info
          = classifyCallFallback c sp base.exprId info)
      ∧ (∀ baseId : Nat, isFfiDef c baseId = true →
          classifyCallFallback c sp baseId info = { info with ffi := info.ffi ++ [sp] })
      ∧ (∀ baseId : Nat, isFfiDef c baseId = false →
          classifyCallFallback c sp baseId info
            = if type_is_unsafe_function (c.exprTy baseId) then
                { info with unsafe_call := info.unsafe_call ++ [sp] }
              else info)
      ∧ (∀ baseId : Nat,
          isFfiDef c baseId = true ↔
            ∃ (did : DefId) (flag : Bool), c.defMap baseId = some (.DefFn did flag)
              ∧ did.isLocal = true ∧ c.isForeignItem did.node = true)
      ∧ (∀ (baseId : Nat) (did : DefId) (flag : Bool),
          c.defMap baseId = some (.DefFn did flag) → did.isLocal = false →
            classifyCallFallback c sp baseId info
              = if type_is_unsafe_function (c.exprTy baseId) then
                  { info with unsafe_call := info.unsafe_call ++ [sp] }
                else info) := by
  intro c id sp base args info
  have hffi : ∀ baseId : Nat,
      isFfiDef c baseId = true ↔
        ∃ (did : DefId) (flag : Bool), c.defMap baseId = some (.DefFn did flag)
          ∧ did.isLocal = true ∧ c.isForeignItem did.node = true := by
    intro baseId
    unfold isFfiDef
    split
    · rename_i did flag heq
      simp only [Bool.and_eq_true]
      constructor
      · rintro ⟨hl, hf⟩
        exact ⟨did, flag, heq, hl, hf⟩
      · rintro ⟨did', flag', heq', hl, hf⟩
        rw [heq] at heq'
        simp only [Option.some.injEq, Def.DefFn.injEq] at heq'
        rw [heq'.1]
        exact ⟨hl, hf⟩
    · rename_i hne
      refine iff_of_false (by simp) ?_
      rintro ⟨did', flag', heq', _, _⟩
      exact hne did' flag' heq'
  refine ⟨fun h => classify_call_not_transmute c id sp base args info h, ?_, ?_, hffi, ?_⟩
  · intro baseId h
    simp [classifyCallFallback, h]
  · intro baseId h
    simp [classifyCallFallback, h]
  · intro baseId did flag heq hl
    have h : isFfiDef c baseId = false := by
      rw [Bool.eq_false_iff]
      intro hc
      obtain ⟨did', flag', heq', hl', _⟩ := (hffi baseId).mp hc
      rw [heq] at heq'
      simp only [Option.some.injEq, Def.DefFn.injEq] at heq'
      rw [heq'.1] at hl
      rw [hl] at hl'
      exact Bool.false_ne_true hl'
    simp [classifyCallFallback, h]

/-- Witness for claim C7's theorem: callee 200 (local foreign item) is
recorded as ffi; callee 201 (cross-crate def with unsafe fn type) is
recorded as an unsafe call, not as ffi. -/
theorem claim7_witness :
    (isFfiDef claim7Ctxt 200 = true
        ∧ claim7Ctxt.defMap 201 = some (.DefFn ⟨false, 6⟩ false))
      ∧ classifyCallFallback claim7Ctxt ⟨12, 13⟩ 200 (NodeInfo.new ⟨0, 9⟩ true false)
          = { NodeInfo.new ⟨0, 9⟩ true false with ffi := [⟨12, 13⟩] }
      ∧ classifyCallFallback claim7Ctxt ⟨12, 13⟩ 201 (NodeInfo.new ⟨0, 9⟩ true false)
          = (if type_is_unsafe_function (claim7Ctxt.exprTy 201) then
              { NodeInfo.new ⟨0, 9⟩ true false with unsafe_call := [⟨12, 13⟩] }
            else NodeInfo.new ⟨0, 9⟩ true false) :=
  ⟨⟨rfl, rfl⟩,
    (claim7_thm claim7Ctxt 0 ⟨12, 13⟩ (.ExprPath 200 ⟨12, 13⟩ "f") .nil
        (NodeInfo.new ⟨0, 9⟩ true false)).2.1 200 rfl,
    (claim7_thm claim7Ctxt 0 ⟨12, 13⟩ (.ExprPath 201 ⟨12, 13⟩ "g") .nil
        (NodeInfo.new ⟨0, 9⟩ true false)).2.2.2.2 201 ⟨false, 6⟩ false rfl rfl⟩

/-- Claim C9: the transmute rule matches purely on the callee path's last
segment being `transmute` with exactly one argument — such a call never
touches the ffi or unsafe-call categories, its classification is unchanged
under any modification of the def map and foreign-item table (so it holds
whatever the name resolves to), and it always lands in exactly one of the
three reinterpretation categories; a transmute-named call with zero or with
two or more arguments instead falls through to the foreign-call/unsafe-call
fallback rules. -/
theorem claim9_thm : ∀ (c : Ctxt) (id pid : Nat) (sp psp : Span) (arg a2 : Expr)
    (args : ExprList) (info : NodeInfo) (dm : Nat → Option Def) (fi : Nat → Bool),
    ((classifyExpr c (.ExprCall id sp (.ExprPath pid psp "transmute")
        (.cons arg .nil)) info).ffi = info.ffi)
      ∧ ((classifyExpr c (.ExprCall id sp (.ExprPath pid psp "transmute")
          (.cons arg .nil)) info).unsafe_call = info.unsafe_call)
      ∧ (classifyExpr { c with defMap := dm, isForeignItem := fi }
            (.ExprCall id sp (.ExprPath pid psp "transmute") (.cons arg .nil)) info
          = classifyExpr c (.ExprCall id sp (.ExprPath pid psp "transmute")
              (.cons arg .nil)) info)
      ∧ ((classifyExpr c (.ExprCall id sp (.ExprPath pid psp "transmute")
            (.cons arg .nil)) info).transmute.length
          + (classifyExpr c (.ExprCall id sp (.ExprPath pid psp "transmute")
              (.cons arg .nil)) info).transmute_imm_to_mut.length
          + (classifyExpr c (.ExprCall id sp (.ExprPath pid psp "transmute")
              (.cons arg .nil)) info).cast_raw_ptr_const_to_mut.length
          = info.transmute.length + info.transmute_imm_to_mut.length
            + info.cast_raw_ptr_const_to_mut.length + 1)
      ∧ (classifyExpr c (.ExprCall id sp (.ExprPath pid psp "transmute") .nil) info
          = classifyCallFallback c sp pid info)
      ∧ (classifyExpr c (.ExprCall id sp (.ExprPath pid psp "transmute")
            (.cons arg (.cons a2 args))) info
          = classifyCallFallback c sp pid info) := by
  intro c id pid sp psp arg a2 args info dm fi
  rcases checkPtrCast_spec c sp arg.exprId id info with h | h | h
  · exact ⟨by simp [classifyExpr, h], by simp [classifyExpr, h], rfl,
      by simp [classifyExpr, h]; omega, rfl, rfl⟩
  · exact ⟨by simp [classifyExpr, h], by simp [classifyExpr, h], rfl,
      by simp [classifyExpr, h]; omega, rfl, rfl⟩
  · exact ⟨by simp [classifyExpr, h], by simp [classifyExpr, h], rfl,
      by simp [classifyExpr, h]; omega, rfl, rfl⟩

/-- Claim C10: an explicit cast whose type pair matches neither mutability
upgrade pattern records nothing in any category (the classifier returns the
record unchanged, and visiting the cast equals visiting its operand in the
unchanged state); in every case a cast leaves the generic transmute category
untouched, so explicit casts never produce a type-reinterpretation entry. -/
theorem claim10_thm : ∀ (c : Ctxt) (id : Nat) (sp : Span) (source : Expr)
    (info : NodeInfo) (st : VState),
    (noUpgradePattern (c.exprTy source.exprId) (c.exprTy id) →
        classifyExpr c (.ExprCast id sp source) info = info)
      ∧ (noUpgradePattern (c.exprTy source.exprId) (c.exprTy id) →
          visit_expr c (.ExprCast id sp source) st = visit_expr c source st)
      ∧ (classifyExpr c (.ExprCast id sp source) info).transmute = info.transmute := by
  intro c id sp source info st
  have hcast : ∀ (inf : NodeInfo),
      noUpgradePattern (c.exprTy source.exprId) (c.exprTy id) →
        classifyExpr c (.ExprCast id sp source) inf = inf := by
    intro inf h
    have hc := checkPtrCast_no_match c sp source.exprId id inf h
    simp [classifyExpr, hc]
  refine ⟨hcast info, ?_, ?_⟩
  · intro h
    have hstep : classifyStep c (.ExprCast id sp source) st = st := by
      unfold classifyStep
      rcases hni : st.node_info with _ | ⟨i, inf⟩
      · rfl
      · show (⟨some (i, classifyExpr c (.ExprCast id sp source) inf), st.unsafes⟩ : VState) = st
        rw [hcast inf h, ← hni]
    have hdef : visit_expr c (.ExprCast id sp source) st
        = visit_expr c source (classifyStep c (.ExprCast id sp source) st) := rfl
    rw [hdef, hstep]
  · rcases checkPtrCast_spec c sp source.exprId id info with h | h | h <;>
      simp [classifyExpr, h]

/-- Witness for claim C10's theorem: under the inert program model the cast
types match neither pattern, the record is unchanged, and the cast node
visits like its operand. -/
theorem claim10_witness :
    noUpgradePattern (trivialCtxt.exprTy (Expr.exprId (.ExprPath 300 ⟨1, 2⟩ "x")))
        (trivialCtxt.exprTy 301)
      ∧ classifyExpr trivialCtxt (.ExprCast 301 ⟨1, 3⟩ (.ExprPath 300 ⟨1, 2⟩ "x"))
          (NodeInfo.new ⟨0, 9⟩ false false) = NodeInfo.new ⟨0, 9⟩ false false
      ∧ visit_expr trivialCtxt (.ExprCast 301 ⟨1, 3⟩ (.ExprPath 300 ⟨1, 2⟩ "x"))
          ⟨some (1, NodeInfo.new ⟨0, 9⟩ false false), []⟩
        = visit_expr trivialCtxt (.ExprPath 300 ⟨1, 2⟩ "x")
            ⟨some (1, NodeInfo.new ⟨0, 9⟩ false false), []⟩ :=
  ⟨by decide,
    (claim10_thm trivialCtxt 301 ⟨1, 3⟩ (.ExprPath 300 ⟨1, 2⟩ "x")
        (NodeInfo.new ⟨0, 9⟩ false false)
        ⟨some (1, NodeInfo.new ⟨0, 9⟩ false false), []⟩).1 (by decide),
    (claim10_thm trivialCtxt 301 ⟨1, 3⟩ (.ExprPath 300 ⟨1, 2⟩ "x")
        (NodeInfo.new ⟨0, 9⟩ false false)
        ⟨some (1, NodeInfo.new ⟨0, 9⟩ false false), []⟩).2.1 (by decide)⟩

/-- Claim C8: for any region and flags, the collected spans are sorted
ascending by source start offset (the sorted list is a permutation of the
collected spans), and the printed `(line, file)` pairs are duplicate free,
contain exactly the pairs of the collected spans, and form an order-preserving
subsequence of the sorted pairs (first occurrences in sorted order);
concretely, two flagged spans on the same source line print exactly one
line. -/
theorem claim8_thm : ∀ (lineOf : Nat → Nat × String) (nonffi ffi : Bool)
    (info : NodeInfo),
    (sortByLo (collectSpans nonffi ffi info)).Sorted (fun a b => a.lo ≤ b.lo)
      ∧ List.Perm (sortByLo (collectSpans nonffi ffi info)) (collectSpans nonffi ffi info)
      ∧ (printedPairs lineOf nonffi ffi info).Nodup
      ∧ (∀ p : Nat × String, p ∈ printedPairs lineOf nonffi ffi info ↔
          p ∈ (collectSpans nonffi ffi info).map (fun s => lineOf s.lo))
      ∧ (printedPairs lineOf nonffi ffi info).Sublist
          ((sortByLo (collectSpans nonffi ffi info)).map (fun s => lineOf s.lo))
      ∧ printedPairs claim8LineOf true false claim8Info = [(5, "a.rs")] := by
  intro lineOf nonffi ffi info
  refine ⟨sorted_sortByLo _, sortByLo_perm _, nodup_dedupFirst _ _, ?_,
    dedupFirst_sublist _ _, by decide⟩
  intro p
  unfold printedPairs
  rw [mem_dedupFirst]
  simp only [List.not_mem_nil, not_false_iff, and_true]
  exact ((sortByLo_perm (collectSpans nonffi ffi info)).map (fun s => lineOf s.lo)).mem_iff

end UnsafeLs
